import Mathlib

/-!
Shallow embedding of the GoQuorra job store (`internal/store`, PostgreSQL
backend) and proofs about it.

Modelling conventions:

* The `jobs` relation is a `List Job`; one SQL row per list entry.
* Wall-clock instants are an `Int` number of nanoseconds, matching
  `time.Time` arithmetic, which is exact.
* Go's `time.Duration` is a signed 64-bit count of nanoseconds; products such
  as `time.Duration(s) * time.Second` wrap modulo 2^64 in two's complement.
  `wrap64` makes that wrap explicit.  Go's `int` is 64 bits wide on the
  linux/amd64 and linux/arm64 targets the repository's Dockerfile builds,
  so `1 << uint(n)` on `int` is `goShl1`.
* Each store method takes the generated identifiers (`uuid.New().String()`)
  and the `time.Now()` instant as explicit arguments.  `AckJob` calls
  `time.Now()` a second time inside the transaction; the spec's single-clock
  model (§4.5) lets us use one `now` for both reads.
* Database transport failures are outside the model; the `Except` error
  results correspond to the explicit error returns of the Go code
  (`"failed to get job"`, `"invalid lease ID"`).  An error return happens
  before the transaction commits, so the caller's view of the relation is
  unchanged; `ackJobRun` makes that rollback explicit.
-/

namespace GoQuorra

/-- Nanoseconds per second, the value of Go's `time.Second`. -/
def nsPerSecond : Int := 1000000000

/-- Two's-complement wrap of an integer into the signed 64-bit range
`[-2^63, 2^63)`, the behaviour of Go arithmetic on `int64` overflow. -/
def wrap64 (x : Int) : Int := (x + 2 ^ 63) % 2 ^ 64 - 2 ^ 63

/-- The Go expression `1 << uint(n)` evaluated on a 64-bit `int`:
the shift count is `n` converted to an unsigned 64-bit integer, a shift by
64 or more produces 0, and a shift by 63 overflows to `-2^63`. -/
def goShl1 (n : Int) : Int :=
  let u := (n % 2 ^ 64).toNat
  if u ≥ 64 then 0 else wrap64 (2 ^ u)

/-- The Go expression `time.Duration(s) * time.Second`: the number of
seconds as a 64-bit nanosecond duration, wrapping on overflow. -/
def goSecondsToDuration (s : Int) : Int := wrap64 (s * nsPerSecond)

/-- Job status constants of `internal/store` (`StatusPending`, …). -/
inductive JobStatus where
  | pending
  | leased
  | processing
  | succeeded
  | failed
  | dead
deriving DecidableEq, Repr

/-- One row of the `jobs` relation (struct `store.Job`).  The Go field
`Type` is `jobType` here; nullable columns are `Option`; `payload` is kept
as its serialised JSON text, which the store treats as opaque. -/
structure Job where
  id : String
  jobType : String
  payload : String
  queue : String
  priority : Int
  status : JobStatus
  attempts : Int
  maxRetries : Int
  lastError : Option String
  leaseId : Option String
  leasedAt : Option Int
  leasedBy : Option String
  runAt : Int
  createdAt : Int
  updatedAt : Int
deriving DecidableEq, Repr

/-- Struct `store.CreateJobRequest`; `payload` is its serialised form. -/
structure CreateJobRequest where
  jobType : String
  payload : String
  queue : String
  priority : Int
  delaySeconds : Int
  maxRetries : Int
deriving DecidableEq, Repr

/-- Method `PostgresStore.CreateJob`: compute `run_at` (`now` plus the delay when
positive), default the queue to `"default"` when empty and `max_retries`
to 3 when zero, and insert a fresh pending row.  Returns the new job and
the updated relation. -/
def createJob (db : List Job) (req : CreateJobRequest) (id : String)
    (now : Int) : Job × List Job :=
  let runAt := if req.delaySeconds > 0 then
    now + goSecondsToDuration req.delaySeconds else now
  let queue := if req.queue = "" then "default" else req.queue
  let maxRetries := if req.maxRetries = 0 then 3 else req.maxRetries
  let job : Job :=
    { id := id
      jobType := req.jobType
      payload := req.payload
      queue := queue
      priority := req.priority
      status := .pending
      attempts := 0
      maxRetries := maxRetries
      lastError := none
      leaseId := none
      leasedAt := none
      leasedBy := none
      runAt := runAt
      createdAt := now
      updatedAt := now }
  (job, db ++ [job])

/-- The `ORDER BY priority DESC, run_at ASC` selection order of
`PostgresStore.LeaseJobs` as a binary relation: `a` comes no later than
`b`. -/
def jobLe (a b : Job) : Prop :=
  b.priority < a.priority ∨ (a.priority = b.priority ∧ a.runAt ≤ b.runAt)

instance : DecidableRel jobLe := fun a b => by
  unfold jobLe
  infer_instance

instance : IsTotal Job jobLe where
  total a b := by
    unfold jobLe
    omega

instance : IsTrans Job jobLe where
  trans a b c hab hbc := by
    unfold jobLe at hab hbc ⊢
    omega

/-- The `WHERE` clause of the locked subquery of `PostgresStore.LeaseJobs`:
`queue = $5 AND status = 'pending' AND run_at <= $7`. -/
def leaseEligible (queue : String) (now : Int) (j : Job) : Bool :=
  decide (j.queue = queue ∧ j.status = JobStatus.pending ∧ j.runAt ≤ now)

/-- The `SET` clause of `PostgresStore.LeaseJobs` applied to one row:
`status = 'leased', lease_id = $2, leased_at = $3, leased_by = $4,
updated_at = $3`. -/
def leaseUpdate (leaseID workerID : String) (now : Int) (j : Job) : Job :=
  { j with
      status := .leased
      leaseId := some leaseID
      leasedAt := some now
      leasedBy := some workerID
      updatedAt := now }

/-- Method `PostgresStore.LeaseJobs`: select up to `maxJobs` eligible rows in
`priority DESC, run_at ASC` order, mark them leased in the same atomic
statement, and return the updated rows together with the updated relation.
`leaseTTL` is only used to compute the local `leaseUntil`, which the query
never reads.  Skip-locked contention and transport errors are outside this
single-call model; on the no-candidate path the Go code returns an empty
slice and a nil error.

Ordering caveat: this embedding lists the returned rows in the subquery's
sort order, but PostgreSQL leaves the row order of `UPDATE ... RETURNING`
unspecified — the inner `ORDER BY` only chooses which ids the `LIMIT`
picks, it does not order the `RETURNING` output.  The theorems below
therefore use only properties of the result that are invariant under
permuting this list (membership, length, emptiness), never the position
of a row in it. -/
def leaseJobs (db : List Job) (queue workerID : String) (maxJobs : Nat)
    (leaseTTL : Int) (leaseID : String) (now : Int) : List Job × List Job :=
  let _leaseUntil := now + leaseTTL
  let selected :=
    (List.insertionSort jobLe (db.filter (leaseEligible queue now))).take maxJobs
  let selectedIds := selected.map Job.id
  let db' := db.map fun j =>
    if j.id ∈ selectedIds then leaseUpdate leaseID workerID now j else j
  (selected.map (leaseUpdate leaseID workerID now), db')

/-- Method `PostgresStore.AckJob`: read the row's `lease_id`, `attempts` and
`max_retries`; fail when the row is absent or the stored lease is null or
differs from the submitted one; otherwise settle — success marks the row
succeeded and clears the lease fields, failure increments `attempts` and
either dead-letters the row (`attempts' >= max_retries`) or reschedules it
pending with exponential backoff `1 << attempts'` seconds capped at 3600. -/
def ackJob (db : List Job) (jobID leaseID : String) (success : Bool)
    (errorMsg : String) (now : Int) : Except String (List Job) :=
  match db.find? (fun j => decide (j.id = jobID)) with
  | none => .error "failed to get job"
  | some j =>
    if j.leaseId = some leaseID then
      if success then
        .ok (db.map fun x =>
          if x.id = jobID then
            { x with
                status := .succeeded
                leaseId := none
                leasedAt := none
                leasedBy := none
                updatedAt := now }
          else x)
      else
        let attempts := j.attempts + 1
        if attempts ≥ j.maxRetries then
          .ok (db.map fun x =>
            if x.id = jobID then
              { x with
                  status := .dead
                  attempts := attempts
                  lastError := some errorMsg
                  runAt := now
                  leaseId := none
                  leasedAt := none
                  leasedBy := none
                  updatedAt := now }
            else x)
        else
          let backoffRaw := goShl1 attempts
          let backoffSeconds := if backoffRaw > 3600 then 3600 else backoffRaw
          let runAt := now + goSecondsToDuration backoffSeconds
          .ok (db.map fun x =>
            if x.id = jobID then
              { x with
                  status := .pending
                  attempts := attempts
                  lastError := some errorMsg
                  runAt := runAt
                  leaseId := none
                  leasedAt := none
                  leasedBy := none
                  updatedAt := now }
            else x)
    else .error "invalid lease ID"

/-- The relation as the caller sees it after `AckJob`: an error return
happens before commit, so the transaction rolls back and the stored rows
are untouched. -/
def ackJobRun (db : List Job) (jobID leaseID : String) (success : Bool)
    (errorMsg : String) (now : Int) : List Job :=
  match ackJob db jobID leaseID success errorMsg now with
  | .ok db' => db'
  | .error _ => db

/-- Method `PostgresStore.MoveToReady`: `UPDATE jobs SET status = 'pending',
updated_at = NOW() WHERE id = $2 AND status = 'pending'` — the match
condition and the assignment use the same status constant. -/
def moveToReady (db : List Job) (jobID : String) (now : Int) : List Job :=
  db.map fun j =>
    if j.id = jobID ∧ j.status = JobStatus.pending then
      { j with status := JobStatus.pending, updatedAt := now }
    else j

/-- Backoff as the specification words it (§4.1): `backoff(n) =
min(2^n seconds, 3600 seconds)`.  Used to compare the code's backoff
against the spec's formula. -/
def specBackoff (n : Nat) : Int := min (2 ^ n) 3600

/-- The per-row update of the success branch of `AckJob`. -/
def ackSuccessUpdate (jobID : String) (now : Int) (x : Job) : Job :=
  if x.id = jobID then
    { x with
        status := .succeeded
        leaseId := none
        leasedAt := none
        leasedBy := none
        updatedAt := now }
  else x

/-- The per-row update of the dead-letter branch of `AckJob`. -/
def ackDeadUpdate (jobID errorMsg : String) (now attemptsNew : Int)
    (x : Job) : Job :=
  if x.id = jobID then
    { x with
        status := .dead
        attempts := attemptsNew
        lastError := some errorMsg
        runAt := now
        leaseId := none
        leasedAt := none
        leasedBy := none
        updatedAt := now }
  else x

/-- The per-row update of the retry branch of `AckJob`. -/
def ackRetryUpdate (jobID errorMsg : String) (now runAtNew attemptsNew : Int)
    (x : Job) : Job :=
  if x.id = jobID then
    { x with
        status := .pending
        attempts := attemptsNew
        lastError := some errorMsg
        runAt := runAtNew
        leaseId := none
        leasedAt := none
        leasedBy := none
        updatedAt := now }
  else x

/-- The backoff seconds the code computes for the new attempt count:
`1 << attempts'` on a 64-bit int, clamped to 3600 when larger. -/
def codeBackoffSeconds (attemptsNew : Int) : Int :=
  let backoffRaw := goShl1 attemptsNew
  if backoffRaw > 3600 then 3600 else backoffRaw

/-- A leased job used as a concrete test fixture. -/
def jobA : Job :=
  { id := "a"
    jobType := "email"
    payload := "\x7b\x7d"
    queue := "default"
    priority := 0
    status := .leased
    attempts := 0
    maxRetries := 3
    lastError := none
    leaseId := some "L1"
    leasedAt := some 0
    leasedBy := some "w1"
    runAt := 0
    createdAt := 0
    updatedAt := 0 }

/-- A leased job two failures away from its retry bound. -/
def jobB : Job := { jobA with id := "b", attempts := 2 }

/-- A leased job that has already failed 62 times, with a large retry
budget. -/
def jobC : Job := { jobA with id := "c", attempts := 62, maxRetries := 100 }

/-- A pending, immediately due fixture job. -/
def jobP : Job := { jobA with id := "p", status := .pending }

/-- An enqueue request that asks for `max_retries = 0`. -/
def reqD : CreateJobRequest :=
  { jobType := "t"
    payload := "\x7b\x7d"
    queue := ""
    priority := 0
    delaySeconds := 0
    maxRetries := 0 }

/-- A delay request large enough that its 64-bit nanosecond duration
overflows: `10^10 s · 10^9 ns/s = 10^19 ns > 2^63 - 1`. -/
def reqE : CreateJobRequest :=
  { jobType := "t"
    payload := "\x7b\x7d"
    queue := "q"
    priority := 0
    delaySeconds := 10000000000
    maxRetries := 3 }

/-- A plain one-minute-delay request. -/
def reqW : CreateJobRequest :=
  { jobType := "t"
    payload := "\x7b\x7d"
    queue := "default"
    priority := 0
    delaySeconds := 60
    maxRetries := 3 }

/-- Evaluation facts about the embedded 64-bit arithmetic: the shift
leaves the representable range at a count of 63, and the overflowed
second-to-duration product collapses to 0 there. -/
theorem goShl1_and_duration_values :
    goShl1 12 = 4096 ∧
    goShl1 62 = 4611686018427387904 ∧
    goShl1 63 = -9223372036854775808 ∧
    goShl1 64 = 0 ∧
    goSecondsToDuration (goShl1 63) = 0 ∧
    goSecondsToDuration 3600 = 3600000000000 ∧
    goSecondsToDuration 10000000000 = -8446744073709551616 := by
  refine ⟨by decide, by decide, by decide, by decide, by decide, by decide,
    by decide⟩

/-- Mapping an id-preserving row update over the relation commutes with
looking a row up by id. -/
theorem find?_map_of_id (db : List Job) (jobID : String) (f : Job → Job)
    (hf : ∀ j, (f j).id = j.id) :
    (db.map f).find? (fun x => decide (x.id = jobID)) =
      (db.find? (fun x => decide (x.id = jobID))).map f := by
  rw [List.find?_map]
  have hp : ((fun x => decide (x.id = jobID)) ∘ f) =
      (fun x : Job => decide (x.id = jobID)) := by
    funext j
    simp [Function.comp, hf]
  rw [hp]

/-- The row returned by a successful `find?` satisfies the predicate. -/
theorem find?_id_eq (db : List Job) (jobID : String) (j : Job)
    (h : db.find? (fun x => decide (x.id = jobID)) = some j) :
    j.id = jobID := by
  have h1 := List.find?_some h
  simpa using h1

theorem ackJob_success_eq (db : List Job) (jobID leaseID : String)
    (errorMsg : String) (now : Int) (j : Job)
    (hfind : db.find? (fun x => decide (x.id = jobID)) = some j)
    (hlease : j.leaseId = some leaseID) :
    ackJob db jobID leaseID true errorMsg now =
      .ok (db.map (ackSuccessUpdate jobID now)) := by
  unfold ackJob
  rw [hfind]
  simp only [hlease, if_pos rfl, if_pos trivial]
  rfl

/-- Claim C1: a settle (`AckJob`) on an existing job whose stored lease_id
is null or differs from the submitted lease_id fails with the
invalid-lease error, and the job rows are left byte-for-byte unchanged
(the transaction rolls back before any update). -/
theorem ackJob_invalid_lease_error_and_unchanged
    (db : List Job) (jobID leaseID : String) (success : Bool)
    (errorMsg : String) (now : Int) (j : Job)
    (hfind : db.find? (fun x => decide (x.id = jobID)) = some j)
    (hlease : j.leaseId = none ∨ j.leaseId ≠ some leaseID) :
    ackJob db jobID leaseID success errorMsg now = .error "invalid lease ID" ∧
    ackJobRun db jobID leaseID success errorMsg now = db := by
  have hne : ¬ j.leaseId = some leaseID := by
    rcases hlease with h | h
    · simp [h]
    · exact h
  have herr : ackJob db jobID leaseID success errorMsg now =
      .error "invalid lease ID" := by
    unfold ackJob
    rw [hfind]
    simp [hne]
  refine ⟨herr, ?_⟩
  unfold ackJobRun
  rw [herr]

/-- Witness for C1: the fixture job holds lease `"L1"`; settling with
`"L2"` fails and leaves the relation unchanged. -/
theorem ackJob_invalid_lease_error_and_unchanged_witness :
    ackJob [jobA] "a" "L2" true "" 5 = .error "invalid lease ID" ∧
    ackJobRun [jobA] "a" "L2" true "" 5 = [jobA] :=
  ackJob_invalid_lease_error_and_unchanged [jobA] "a" "L2" true "" 5 jobA
    (by decide) (by decide)

/-- Claim C7: settling a currently leased job with its lease id and
`success = true` marks it succeeded, clears `lease_id`, `leased_at` and
`leased_by`, leaves `attempts` (and every other field except
`updated_at`) unchanged; any later settle of the same job — with the same
or any lease id — fails with the invalid-lease error and leaves the first
settlement's state intact. -/
theorem ackJob_success_then_second_settle_fails
    (db : List Job) (jobID leaseID : String) (errorMsg : String)
    (now : Int) (j : Job)
    (hfind : db.find? (fun x => decide (x.id = jobID)) = some j)
    (hlease : j.leaseId = some leaseID) :
    ackJob db jobID leaseID true errorMsg now =
      .ok (db.map (ackSuccessUpdate jobID now)) ∧
    (db.map (ackSuccessUpdate jobID now)).find?
        (fun x => decide (x.id = jobID)) =
      some { j with
              status := .succeeded
              leaseId := none
              leasedAt := none
              leasedBy := none
              updatedAt := now } ∧
    ∀ leaseID2 success2 msg2 now2,
      ackJob (db.map (ackSuccessUpdate jobID now)) jobID leaseID2 success2
          msg2 now2 = .error "invalid lease ID" ∧
      ackJobRun (db.map (ackSuccessUpdate jobID now)) jobID leaseID2 success2
          msg2 now2 = db.map (ackSuccessUpdate jobID now) := by
  have hid : j.id = jobID := find?_id_eq db jobID j hfind
  have hfind' : (db.map (ackSuccessUpdate jobID now)).find?
      (fun x => decide (x.id = jobID)) =
      some { j with
              status := .succeeded
              leaseId := none
              leasedAt := none
              leasedBy := none
              updatedAt := now } := by
    rw [find?_map_of_id db jobID _ (fun x => by
      unfold ackSuccessUpdate
      by_cases h : x.id = jobID <;> simp [h])]
    rw [hfind]
    simp [ackSuccessUpdate, hid]
  refine ⟨ackJob_success_eq db jobID leaseID errorMsg now j hfind hlease,
    hfind', ?_⟩
  intro leaseID2 success2 msg2 now2
  exact ackJob_invalid_lease_error_and_unchanged _ jobID leaseID2 success2
    msg2 now2 _ hfind' (Or.inl rfl)

/-- Witness for C7: settle the fixture job successfully with its lease
`"L1"`, then settle again with the same lease id. -/
theorem ackJob_success_then_second_settle_fails_witness :
    ackJob [jobA] "a" "L1" true "" 5 =
      .ok ([jobA].map (ackSuccessUpdate "a" 5)) ∧
    ackJob ([jobA].map (ackSuccessUpdate "a" 5)) "a" "L1" true "" 9 =
      .error "invalid lease ID" ∧
    ackJobRun ([jobA].map (ackSuccessUpdate "a" 5)) "a" "L1" true "" 9 =
      [jobA].map (ackSuccessUpdate "a" 5) := by
  have h := ackJob_success_then_second_settle_fails [jobA] "a" "L1" "" 5 jobA
    (by decide) (by decide)
  exact ⟨h.1, (h.2.2 "L1" true "" 9).1, (h.2.2 "L1" true "" 9).2⟩

/-- Claim C9: `leaseTTL` influences neither the rows returned by
`LeaseJobs` nor the updated relation — the computed lease expiry is never
written to the store or consulted by the query, so two calls differing
only in `leaseTTL` coincide. -/
theorem leaseJobs_ignores_leaseTTL (db : List Job) (queue workerID : String)
    (maxJobs : Nat) (ttl1 ttl2 : Int) (leaseID : String) (now : Int) :
    leaseJobs db queue workerID maxJobs ttl1 leaseID now =
    leaseJobs db queue workerID maxJobs ttl2 leaseID now := rfl

/-- Claim C10: `MoveToReady` never changes any job's status: its `UPDATE`
matches a row only when the status is already `pending` and then writes
`pending` back, so the whole call equals a pure `updated_at` touch of the
matched row and every other field of every row is unchanged. -/
theorem moveToReady_only_touches_updatedAt (db : List Job) (jobID : String)
    (now : Int) :
    moveToReady db jobID now = db.map fun j =>
      { j with
          updatedAt :=
            if j.id = jobID ∧ j.status = JobStatus.pending then now
            else j.updatedAt } := by
  unfold moveToReady
  apply List.map_congr_left
  intro j _
  by_cases hc : j.id = jobID ∧ j.status = JobStatus.pending
  · obtain ⟨h1, h2⟩ := hc
    cases j
    simp_all
  · simp [hc]

theorem ackJob_failure_dead_eq (db : List Job) (jobID leaseID : String)
    (errorMsg : String) (now : Int) (j : Job)
    (hfind : db.find? (fun x => decide (x.id = jobID)) = some j)
    (hlease : j.leaseId = some leaseID)
    (hge : j.maxRetries ≤ j.attempts + 1) :
    ackJob db jobID leaseID false errorMsg now =
      .ok (db.map (ackDeadUpdate jobID errorMsg now (j.attempts + 1))) := by
  unfold ackJob
  rw [hfind]
  dsimp only
  rw [if_pos hlease]
  simp only [Bool.false_eq_true, if_false]
  rw [if_pos hge]
  rfl

theorem ackJob_failure_retry_eq (db : List Job) (jobID leaseID : String)
    (errorMsg : String) (now : Int) (j : Job)
    (hfind : db.find? (fun x => decide (x.id = jobID)) = some j)
    (hlease : j.leaseId = some leaseID)
    (hlt : j.attempts + 1 < j.maxRetries) :
    ackJob db jobID leaseID false errorMsg now =
      .ok (db.map (ackRetryUpdate jobID errorMsg now
        (now + goSecondsToDuration (codeBackoffSeconds (j.attempts + 1)))
        (j.attempts + 1))) := by
  unfold ackJob
  rw [hfind]
  dsimp only
  rw [if_pos hlease]
  simp only [Bool.false_eq_true, if_false]
  rw [if_neg (not_le.mpr hlt)]
  rfl

theorem ackDeadUpdate_id (jobID errorMsg : String) (now attemptsNew : Int)
    (x : Job) : (ackDeadUpdate jobID errorMsg now attemptsNew x).id = x.id := by
  unfold ackDeadUpdate
  by_cases h : x.id = jobID <;> simp [h]

theorem ackRetryUpdate_id (jobID errorMsg : String)
    (now runAtNew attemptsNew : Int) (x : Job) :
    (ackRetryUpdate jobID errorMsg now runAtNew attemptsNew x).id = x.id := by
  unfold ackRetryUpdate
  by_cases h : x.id = jobID <;> simp [h]

/-- Claim C4: a failure settlement with a matching lease where
`attempts + 1 >= max_retries` turns the job dead with
`attempts = attempts + 1`, `run_at = now`, `last_error` set to the supplied
message and the lease fields cleared; and the settled job is dead exactly
when `attempts + 1 >= max_retries` (never below the bound). -/
theorem ackJob_failure_dead_transition
    (db : List Job) (jobID leaseID : String) (errorMsg : String) (now : Int)
    (j : Job)
    (hfind : db.find? (fun x => decide (x.id = jobID)) = some j)
    (hlease : j.leaseId = some leaseID) :
    ∃ db', ackJob db jobID leaseID false errorMsg now = .ok db' ∧
      ∃ j', db'.find? (fun x => decide (x.id = jobID)) = some j' ∧
        (j'.status = JobStatus.dead ↔ j.maxRetries ≤ j.attempts + 1) ∧
        (j.maxRetries ≤ j.attempts + 1 →
          j' = { j with
                  status := .dead
                  attempts := j.attempts + 1
                  lastError := some errorMsg
                  runAt := now
                  leaseId := none
                  leasedAt := none
                  leasedBy := none
                  updatedAt := now }) := by
  have hid : j.id = jobID := find?_id_eq db jobID j hfind
  by_cases hge : j.maxRetries ≤ j.attempts + 1
  · refine ⟨_, ackJob_failure_dead_eq db jobID leaseID errorMsg now j hfind
      hlease hge, ?_⟩
    refine ⟨ackDeadUpdate jobID errorMsg now (j.attempts + 1) j, ?_, ?_, ?_⟩
    · rw [find?_map_of_id db jobID _ (ackDeadUpdate_id jobID errorMsg now _),
        hfind]
      rfl
    · unfold ackDeadUpdate
      rw [if_pos hid]
      exact iff_of_true rfl hge
    · intro _
      unfold ackDeadUpdate
      rw [if_pos hid]
  · have hlt : j.attempts + 1 < j.maxRetries := not_le.mp hge
    refine ⟨_, ackJob_failure_retry_eq db jobID leaseID errorMsg now j hfind
      hlease hlt, ?_⟩
    refine ⟨ackRetryUpdate jobID errorMsg now
      (now + goSecondsToDuration (codeBackoffSeconds (j.attempts + 1)))
      (j.attempts + 1) j, ?_, ?_, ?_⟩
    · rw [find?_map_of_id db jobID _ (ackRetryUpdate_id jobID errorMsg now _ _),
        hfind]
      rfl
    · unfold ackRetryUpdate
      rw [if_pos hid]
      exact iff_of_false (by simp) hge
    · intro h
      exact absurd h hge

/-- Witness for C4: the fixture job has `attempts = 2`, `max_retries = 3`;
one more failure dead-letters it. -/
theorem ackJob_failure_dead_transition_witness :
    ∃ db', ackJob [jobB] "b" "L1" false "boom" 50 = .ok db' ∧
      ∃ j', db'.find? (fun x => decide (x.id = "b")) = some j' ∧
        (j'.status = JobStatus.dead ↔ jobB.maxRetries ≤ jobB.attempts + 1) ∧
        (jobB.maxRetries ≤ jobB.attempts + 1 →
          j' = { jobB with
                  status := .dead
                  attempts := jobB.attempts + 1
                  lastError := some "boom"
                  runAt := 50
                  leaseId := none
                  leasedAt := none
                  leasedBy := none
                  updatedAt := 50 }) :=
  ackJob_failure_dead_transition [jobB] "b" "L1" "boom" 50 jobB
    (by decide) (by decide)

/-- For new attempt counts 1..62 the code's backoff equals the spec's
`min(2^n, 3600)`: the 64-bit shift has not yet overflowed. -/
theorem codeBackoffSeconds_eq_specBackoff (n : Nat) (h1 : 1 ≤ n)
    (h2 : n ≤ 62) : codeBackoffSeconds (n : Int) = specBackoff n := by
  have hlt : (n : Int) < 2 ^ 64 := by
    have : (n : Int) ≤ 62 := by exact_mod_cast h2
    omega
  have hmod : (n : Int) % 2 ^ 64 = (n : Int) :=
    Int.emod_eq_of_lt (by positivity) hlt
  have htn : ((n : Int) % 2 ^ 64).toNat = n := by
    rw [hmod]
    exact Int.toNat_natCast n
  have hshl : goShl1 (n : Int) = (2 : Int) ^ n := by
    unfold goShl1
    rw [htn]
    rw [if_neg (by omega)]
    unfold wrap64
    have hpow : (2 : Int) ^ n + 2 ^ 63 < 2 ^ 64 := by
      have : (2 : Int) ^ n ≤ 2 ^ 62 := by
        exact pow_le_pow_right₀ (by norm_num) h2
      calc (2 : Int) ^ n + 2 ^ 63 ≤ 2 ^ 62 + 2 ^ 63 := by omega
        _ < 2 ^ 64 := by norm_num
    have hnn : (0 : Int) ≤ 2 ^ n + 2 ^ 63 := by positivity
    rw [Int.emod_eq_of_lt hnn hpow]
    omega
  unfold codeBackoffSeconds specBackoff
  rw [hshl]
  rcases le_or_lt ((2 : Int) ^ n) 3600 with h | h
  · rw [if_neg (not_lt.mpr h), min_eq_left h]
  · rw [if_pos h, min_eq_right (le_of_lt h)]

/-- Claim C2 (divergence at the 63rd attempt): settling `jobC` as a
failure takes the retry branch (63 < 100), but the Go expression
`1 << 63` on a 64-bit int is `-2^63`, the `> 3600` clamp therefore does
not fire, and `time.Duration(-2^63) * time.Second` wraps to 0 — so the
new `run_at` equals `now` (zero backoff), while the spec's
`backoff(63) = min(2^63, 3600) = 3600` demands `now + 3600 s`. -/
theorem ackJob_backoff_overflow_at_attempt_63 :
    ackJob [jobC] "c" "L1" false "boom" 1000 =
      .ok [{ jobC with
              status := .pending
              attempts := 63
              lastError := some "boom"
              runAt := 1000
              leaseId := none
              leasedAt := none
              leasedBy := none
              updatedAt := 1000 }] ∧
    specBackoff 63 = 3600 ∧
    (1000 : Int) + specBackoff 63 * nsPerSecond ≠ 1000 := by
  refine ⟨?_, by decide, by decide⟩
  rfl

/-- Counterexample to claim C5: enqueue with `max_retries = 0` (defaulted
to 3 by `CreateJob`), lease the job, settle it as a failure once — the
job is `pending` with `attempts = 1`, not `dead`. -/
theorem maxRetries_zero_first_failure_not_dead_counterexample :
    (ackJobRun (leaseJobs (createJob [] reqD "d" 0).2 "default" "w1" 1 30
        "L9" 0).2 "d" "L9" false "boom" 5).map Job.status =
      [JobStatus.pending] ∧
    JobStatus.pending ≠ JobStatus.dead := by
  exact ⟨rfl, by decide⟩

/-- Claim C5 as amended: a job enqueued with `max_retries = 0` is stored
with `max_retries = 3` (the `CreateJob` default), so after it is leased
the first failure settlement does not dead-letter it — it returns to
`pending` with `attempts = 1` and stored `max_retries = 3`. -/
theorem maxRetries_zero_first_failure_retries
    (req : CreateJobRequest) (hmr : req.maxRetries = 0) (id : String)
    (now0 : Int) (workerID : String) (maxJobs : Nat) (hmj : 1 ≤ maxJobs)
    (ttl : Int) (leaseID : String) (now1 : Int)
    (hrun : (createJob [] req id now0).1.runAt ≤ now1) (errorMsg : String)
    (now2 : Int) :
    ∃ j', (ackJobRun (leaseJobs (createJob [] req id now0).2
        ((createJob [] req id now0).1.queue) workerID maxJobs ttl leaseID
        now1).2 id leaseID false errorMsg now2).find?
          (fun x => decide (x.id = id)) = some j' ∧
      j'.status = JobStatus.pending ∧ j'.attempts = 1 ∧
      j'.maxRetries = 3 ∧ j'.status ≠ JobStatus.dead := by
  have hjob : (createJob [] req id now0).2 = [(createJob [] req id now0).1] :=
    rfl
  have hmr3 : (createJob [] req id now0).1.maxRetries = 3 := by
    unfold createJob
    dsimp only
    rw [if_pos hmr]
  have hstat : (createJob [] req id now0).1.status = JobStatus.pending := rfl
  have hatt : (createJob [] req id now0).1.attempts = 0 := rfl
  have hfilter : List.filter
      (leaseEligible ((createJob [] req id now0).1.queue) now1)
      [(createJob [] req id now0).1] = [(createJob [] req id now0).1] := by
    simp [leaseEligible, hstat, hrun]
  have hlease : (leaseJobs (createJob [] req id now0).2
      ((createJob [] req id now0).1.queue) workerID maxJobs ttl leaseID
      now1).2 =
      [leaseUpdate leaseID workerID now1 (createJob [] req id now0).1] := by
    unfold leaseJobs
    rw [hjob, hfilter]
    dsimp only
    rw [show List.insertionSort jobLe [(createJob [] req id now0).1] =
      [(createJob [] req id now0).1] from rfl]
    rw [List.take_of_length_le (by simpa using hmj)]
    simp
  rw [hlease]
  have hfind : [leaseUpdate leaseID workerID now1
      (createJob [] req id now0).1].find? (fun x => decide (x.id = id)) =
      some (leaseUpdate leaseID workerID now1 (createJob [] req id now0).1) := by
    have hid : (leaseUpdate leaseID workerID now1
        (createJob [] req id now0).1).id = id := rfl
    simp [List.find?, hid]
  have hlid : (leaseUpdate leaseID workerID now1
      (createJob [] req id now0).1).leaseId = some leaseID := rfl
  have hlt : (leaseUpdate leaseID workerID now1
        (createJob [] req id now0).1).attempts + 1 <
      (leaseUpdate leaseID workerID now1
        (createJob [] req id now0).1).maxRetries := by
    have h1 : (leaseUpdate leaseID workerID now1
        (createJob [] req id now0).1).attempts = 0 := hatt
    have h2 : (leaseUpdate leaseID workerID now1
        (createJob [] req id now0).1).maxRetries = 3 := hmr3
    rw [h1, h2]
    norm_num
  have hack := ackJob_failure_retry_eq
    [leaseUpdate leaseID workerID now1 (createJob [] req id now0).1] id
    leaseID errorMsg now2 _ hfind hlid hlt
  unfold ackJobRun
  rw [hack]
  dsimp only
  have hidup : (leaseUpdate leaseID workerID now1
      (createJob [] req id now0).1).id = id := rfl
  refine ⟨ackRetryUpdate id errorMsg now2
      (now2 + goSecondsToDuration (codeBackoffSeconds
        ((leaseUpdate leaseID workerID now1
          (createJob [] req id now0).1).attempts + 1)))
      ((leaseUpdate leaseID workerID now1
        (createJob [] req id now0).1).attempts + 1)
      (leaseUpdate leaseID workerID now1 (createJob [] req id now0).1),
    ?_, ?_, ?_, ?_, ?_⟩
  · rw [find?_map_of_id _ id _ (ackRetryUpdate_id id errorMsg now2 _ _), hfind]
    rfl
  · unfold ackRetryUpdate
    rw [if_pos hidup]
  · unfold ackRetryUpdate
    rw [if_pos hidup]
    show (createJob [] req id now0).1.attempts + 1 = 1
    rw [hatt]
    norm_num
  · unfold ackRetryUpdate
    rw [if_pos hidup]
    exact hmr3
  · unfold ackRetryUpdate
    rw [if_pos hidup]
    show JobStatus.pending ≠ JobStatus.dead
    decide

/-- Witness for the amended C5 at concrete inputs. -/
theorem maxRetries_zero_first_failure_retries_witness :
    ∃ j', (ackJobRun (leaseJobs (createJob [] reqD "d" 0).2
        ((createJob [] reqD "d" 0).1.queue) "w1" 1 30 "L9" 0).2 "d" "L9"
        false "boom" 5).find? (fun x => decide (x.id = "d")) = some j' ∧
      j'.status = JobStatus.pending ∧ j'.attempts = 1 ∧
      j'.maxRetries = 3 ∧ j'.status ≠ JobStatus.dead :=
  maxRetries_zero_first_failure_retries reqD rfl "d" 0 "w1" 1 (by decide) 30
    "L9" 0 (by decide) "boom" 5

/-- The wrap `wrap64` is the identity on values already in the signed 64-bit
range. -/
theorem wrap64_eq_self (x : Int) (h1 : -(2 ^ 63) ≤ x) (h2 : x < 2 ^ 63) :
    wrap64 x = x := by
  unfold wrap64
  rw [Int.emod_eq_of_lt (by omega) (by omega)]
  omega

/-- Counterexample to claim C8 as stated: inserting with
`delay_seconds = 10^10` (about 317 years) succeeds, but
`time.Duration(10^10) * time.Second` wraps modulo 2^64, so the stored
`run_at` is about 267 years in the past instead of
`created_at + delay_seconds`. -/
theorem createJob_runAt_overflow_counterexample :
    (createJob [] reqE "e" 0).1.runAt = -8446744073709551616 ∧
    (createJob [] reqE "e" 0).1.runAt ≠ 0 + reqE.delaySeconds * nsPerSecond := by
  exact ⟨rfl, by decide⟩

/-- Claim C8 as amended: for every insert whose requested delay is
non-negative and below the 64-bit nanosecond bound (`delay · 10^9 <
2^63`, about 292 years — larger values wrap), the produced job carries
the freshly generated id, `status = pending`, `attempts = 0`,
`created_at = now` and `run_at = created_at + delay_seconds`; a zero
delay gives `run_at = created_at`, an empty queue defaults to
`"default"` and `max_retries = 0` defaults to 3. -/
theorem createJob_produces_fresh_pending_job
    (db : List Job) (req : CreateJobRequest) (id : String) (now : Int)
    (hd0 : 0 ≤ req.delaySeconds)
    (hd1 : req.delaySeconds * nsPerSecond < 2 ^ 63) :
    (createJob db req id now).1.id = id ∧
    (createJob db req id now).1.status = JobStatus.pending ∧
    (createJob db req id now).1.attempts = 0 ∧
    (createJob db req id now).1.createdAt = now ∧
    (createJob db req id now).1.runAt = now + req.delaySeconds * nsPerSecond ∧
    (req.delaySeconds = 0 →
      (createJob db req id now).1.runAt = (createJob db req id now).1.createdAt) ∧
    (req.queue = "" → (createJob db req id now).1.queue = "default") ∧
    (req.maxRetries = 0 → (createJob db req id now).1.maxRetries = 3) ∧
    (createJob db req id now).2 = db ++ [(createJob db req id now).1] := by
  have hns : nsPerSecond = 1000000000 := rfl
  have hrun : (createJob db req id now).1.runAt =
      now + req.delaySeconds * nsPerSecond := by
    show (if req.delaySeconds > 0 then
        now + goSecondsToDuration req.delaySeconds else now) =
      now + req.delaySeconds * nsPerSecond
    rcases lt_or_eq_of_le hd0 with hpos | hzero
    · rw [if_pos hpos]
      unfold goSecondsToDuration
      rw [wrap64_eq_self _ (by
        have := mul_nonneg hd0 (by unfold nsPerSecond; norm_num :
          (0 : Int) ≤ nsPerSecond)
        omega) hd1]
    · rw [if_neg (by omega)]
      rw [← hzero]
      simp
  refine ⟨rfl, rfl, rfl, rfl, hrun, ?_, ?_, ?_, rfl⟩
  · intro h0
    rw [hrun, h0]
    show now + 0 * nsPerSecond = now
    simp
  · intro hq
    show (if req.queue = "" then "default" else req.queue) = "default"
    rw [if_pos hq]
  · intro hm
    show (if req.maxRetries = 0 then 3 else req.maxRetries) = 3
    rw [if_pos hm]

/-- Witness for the amended C8 at a request exercising every default:
empty queue, zero delay, zero `max_retries`. -/
theorem createJob_produces_fresh_pending_job_witness :
    (createJob [] reqD "d" 7).1.id = "d" ∧
    (createJob [] reqD "d" 7).1.status = JobStatus.pending ∧
    (createJob [] reqD "d" 7).1.attempts = 0 ∧
    (createJob [] reqD "d" 7).1.createdAt = 7 ∧
    (createJob [] reqD "d" 7).1.runAt = 7 + reqD.delaySeconds * nsPerSecond ∧
    (reqD.delaySeconds = 0 →
      (createJob [] reqD "d" 7).1.runAt = (createJob [] reqD "d" 7).1.createdAt) ∧
    (reqD.queue = "" → (createJob [] reqD "d" 7).1.queue = "default") ∧
    (reqD.maxRetries = 0 → (createJob [] reqD "d" 7).1.maxRetries = 3) ∧
    (createJob [] reqD "d" 7).2 = [] ++ [(createJob [] reqD "d" 7).1] :=
  createJob_produces_fresh_pending_job [] reqD "d" 7 (by decide) (by decide)

/-- Every job in a `LeaseJobs` result is the lease-update of a row that
was pending, due and in the requested queue when selected. -/
theorem leaseJobs_mem_result (db : List Job) (queue workerID : String)
    (maxJobs : Nat) (ttl : Int) (leaseID : String) (now : Int) (j : Job)
    (hj : j ∈ (leaseJobs db queue workerID maxJobs ttl leaseID now).1) :
    ∃ j0 ∈ db, j0.id = j.id ∧ j0.queue = queue ∧
      j0.status = JobStatus.pending ∧ j0.runAt ≤ now ∧
      j = leaseUpdate leaseID workerID now j0 := by
  unfold leaseJobs at hj
  dsimp only at hj
  rw [List.mem_map] at hj
  obtain ⟨j0, hj0, rfl⟩ := hj
  have hj1 : j0 ∈ List.insertionSort jobLe
      (db.filter (leaseEligible queue now)) :=
    (List.take_sublist _ _).subset hj0
  have hj2 : j0 ∈ db.filter (leaseEligible queue now) :=
    (List.perm_insertionSort jobLe _).mem_iff.mp hj1
  rw [List.mem_filter] at hj2
  obtain ⟨hmem, helig⟩ := hj2
  have h3 := of_decide_eq_true helig
  exact ⟨j0, hmem, rfl, h3.1, h3.2.1, h3.2.2, rfl⟩

/-- Counterexample to claim C3 as stated: a job inserted with
`delay_seconds = 10^10` is returned by a lease call made immediately
(`now = created_at`, well before `created_at + delay`): the overflowed
duration put its `run_at` in the past, so the job is already eligible. -/
theorem leaseJobs_overflowed_delay_visible_counterexample :
    (0 : Int) < 0 + reqE.delaySeconds * nsPerSecond ∧
    "e" ∈ ((leaseJobs (createJob [] reqE "e" 0).2 "q" "w1" 1 30 "L7"
      0).1.map Job.id) := by
  exact ⟨by decide, by decide⟩

/-- Claim C3 as amended: every job returned by `LeaseJobs` was, at
selection time, in the requested queue, pending and due (`run_at ≤ now`);
at most `maxJobs` jobs are returned; when no stored job is eligible the
result is the empty list (and the Go code's error is nil on this path);
and a job inserted with a delay whose 64-bit nanosecond duration does not
overflow (`delay · 10^9 < 2^63`) is invisible to every lease call made
before `created_at + delay`. -/
theorem leaseJobs_visibility_and_bounds (db : List Job)
    (queue workerID : String) (maxJobs : Nat) (ttl : Int) (leaseID : String)
    (now : Int) :
    (∀ j ∈ (leaseJobs db queue workerID maxJobs ttl leaseID now).1,
      ∃ j0 ∈ db, j0.id = j.id ∧ j0.queue = queue ∧
        j0.status = JobStatus.pending ∧ j0.runAt ≤ now) ∧
    (leaseJobs db queue workerID maxJobs ttl leaseID now).1.length ≤
      maxJobs ∧
    ((∀ j ∈ db, ¬(j.queue = queue ∧ j.status = JobStatus.pending ∧
        j.runAt ≤ now)) →
      (leaseJobs db queue workerID maxJobs ttl leaseID now).1 = []) ∧
    (∀ (db0 : List Job) (req : CreateJobRequest) (id : String) (t0 : Int),
      req.delaySeconds * nsPerSecond < 2 ^ 63 →
      id ∉ db0.map Job.id →
      now < t0 + req.delaySeconds * nsPerSecond →
      id ∉ ((leaseJobs (createJob db0 req id t0).2 queue workerID maxJobs
          ttl leaseID now).1.map Job.id)) := by
  have hns : (0 : Int) ≤ nsPerSecond := by
    unfold nsPerSecond
    norm_num
  refine ⟨?_, ?_, ?_, ?_⟩
  · intro j hj
    obtain ⟨j0, hmem, hid, hq, hst, hrun, _⟩ :=
      leaseJobs_mem_result db queue workerID maxJobs ttl leaseID now j hj
    exact ⟨j0, hmem, hid, hq, hst, hrun⟩
  · unfold leaseJobs
    dsimp only
    rw [List.length_map]
    exact List.length_take_le _ _
  · intro h
    unfold leaseJobs
    dsimp only
    have hnil : db.filter (leaseEligible queue now) = [] := by
      refine List.filter_eq_nil_iff.mpr ?_
      intro a ha
      unfold leaseEligible
      simpa using h a ha
    rw [hnil]
    simp
  · intro db0 req id t0 hd1 hfresh hnow hmem
    rw [List.mem_map] at hmem
    obtain ⟨j, hjmem, hjid⟩ := hmem
    obtain ⟨j0, hj0db, hj0id, _, _, hj0run, _⟩ :=
      leaseJobs_mem_result _ queue workerID maxJobs ttl leaseID now j hjmem
    have hsplit : (createJob db0 req id t0).2 =
        db0 ++ [(createJob db0 req id t0).1] := rfl
    rw [hsplit] at hj0db
    rcases List.mem_append.mp hj0db with hold | hnew
    · exact hfresh (List.mem_map.mpr ⟨j0, hold, hj0id.trans hjid⟩)
    · have hj0eq : j0 = (createJob db0 req id t0).1 := by
        simpa using hnew
      have hrunval : j0.runAt = (if req.delaySeconds > 0 then
          t0 + goSecondsToDuration req.delaySeconds else t0) := by
        rw [hj0eq]
        rfl
      by_cases hdp : 0 < req.delaySeconds
      · rw [if_pos hdp] at hrunval
        have hwrap : goSecondsToDuration req.delaySeconds =
            req.delaySeconds * nsPerSecond := by
          unfold goSecondsToDuration
          refine wrap64_eq_self _ ?_ hd1
          have := mul_nonneg (le_of_lt hdp) hns
          omega
        rw [hwrap] at hrunval
        omega
      · rw [if_neg hdp] at hrunval
        have hle : req.delaySeconds * nsPerSecond ≤ 0 :=
          mul_nonpos_of_nonpos_of_nonneg (by omega) hns
        omega

/-- Witness for the amended C3: the bound and the delayed-invisibility
part at concrete inputs (a fresh job delayed 60 s is not leased at its
creation instant). -/
theorem leaseJobs_visibility_and_bounds_witness :
    (leaseJobs [jobP] "default" "w1" 2 30 "L5" 100).1.length ≤ 2 ∧
    "n" ∉ ((leaseJobs (createJob [jobP] reqW "n" 100).2 "default" "w1" 2 30
      "L5" 100).1.map Job.id) := by
  have h := leaseJobs_visibility_and_bounds [jobP] "default" "w1" 2 30 "L5" 100
  exact ⟨h.2.1, h.2.2.2 [jobP] reqW "n" 100 (by decide) (by decide)
    (by decide)⟩

end GoQuorra
